import Mathlib

/-!
Shallow embedding of `mi/instrument/nortek/aquadopp/ooicore/driver.py`
(Aquadopp DW instrument driver) together with the parts of its Nortek
base classes that the driver calls.  Python byte strings are embedded as
`List Nat` (each element one byte), Python dynamic values as small
inductive types.  Definitions taken from the driver source keep the
source's names; definitions whose source lives in the absent base
classes are marked `Modelled from the spec:` in their doc comment.
-/

set_option autoImplicit false

namespace AquadoppDw

/-! ### Wire-type conversion primitives (Nortek parameter dictionary) -/

/-- Modelled from the spec: big-endian word-to-int conversion
(`NortekProtocolParameterDict.convert_word_to_int`, base class absent from
src).  Only ever applied to two-byte groups; other widths give the junk
value 0 and never occur at call sites. -/
def convert_word_to_int : List Nat → Nat
  | [a, b] => a * 256 + b
  | _ => 0

/-- Modelled from the spec: big-endian encoding of a 16-bit value as two
wire bytes (`NortekProtocolParameterDict.word_to_string`, base class
absent from src). -/
def word_to_string (v : Nat) : List Nat :=
  [v / 256 % 256, v % 256]

/-- Modelled from the spec: big-endian double-word-to-int conversion
(`NortekProtocolParameterDict.convert_double_word_to_int`, base class
absent from src). -/
def convert_double_word_to_int : List Nat → Nat
  | [a, b, c, d] => ((a * 256 + b) * 256 + c) * 256 + d
  | _ => 0

/-- Modelled from the spec: big-endian encoding of a 32-bit value as four
wire bytes (`NortekProtocolParameterDict.double_word_to_string`, base
class absent from src). -/
def double_word_to_string (v : Nat) : List Nat :=
  [v / 16777216 % 256, v / 65536 % 256, v / 256 % 256, v % 256]

/-- BCD decoding of one instrument byte: the high nibble is the tens
digit, the low nibble the ones digit. -/
def bcd (b : Nat) : Nat :=
  b / 16 * 10 + b % 16

/-- Modelled from the spec: instrument-epoch timestamp conversion of six
clock bytes into their decoded integer components
(`NortekProtocolParameterDict.convert_words_to_datetime`, base class
absent from src).  The essential point for the round-trip law is that the
result is a decoded datetime, not the raw byte string. -/
def convert_words_to_datetime (s : List Nat) : List Nat :=
  s.map bcd

/-- Modelled from the spec: instrument-epoch timestamp conversion used by
the velocity particle (`NortekProtocolParameterDict.convert_time`, base
class absent from src). -/
def convert_time (s : List Nat) : List Nat :=
  s.map bcd

/-! ### Hex codec (the USER_2_SPARE closures in the driver source) -/

/-- ASCII code of the lowercase hex digit for a nibble, as produced by
Python's `str.encode` with the hex codec. -/
def hexDigitChr (n : Nat) : Nat :=
  if n < 10 then n + 48 else n + 87

/-- Numeric value of an ASCII hex-digit character (0 on junk input). -/
def hexDigitVal (c : Nat) : Nat :=
  if 48 ≤ c ∧ c ≤ 57 then c - 48
  else if 97 ≤ c ∧ c ≤ 102 then c - 87
  else if 65 ≤ c ∧ c ≤ 70 then c - 55
  else 0

/-- Embeds the USER_2_SPARE decoder closure `match.group(1).encode('hex')`
(driver.py line 565): each byte becomes two lowercase hex characters. -/
def hexEncodeBytes : List Nat → List Nat
  | [] => []
  | b :: rest => hexDigitChr (b / 16) :: hexDigitChr (b % 16) :: hexEncodeBytes rest

/-- Embeds the USER_2_SPARE encoder closure `string.decode('hex')`
(driver.py line 566): each pair of hex characters becomes one byte. -/
def hexDecodeStr : List Nat → List Nat
  | a :: b :: rest => (hexDigitVal a * 16 + hexDigitVal b) :: hexDecodeStr rest
  | _ => []

/-- Recognizer for the characters the round-trip domain of USER_2_SPARE
uses: ASCII decimal digits and lowercase hex letters. -/
def isLowerHexDigit (c : Nat) : Bool :=
  (48 ≤ c && c ≤ 57) || (97 ≤ c && c ≤ 102)

/-! ### Parameter dictionary data model (driver.py `_build_param_dict`) -/

/-- Parameter names registered by `Protocol._build_param_dict` in
driver.py (the `Parameter` constants the file references). -/
inductive ParamName
  | TRANSMIT_PULSE_LENGTH
  | BLANKING_DISTANCE
  | RECEIVE_LENGTH
  | TIME_BETWEEN_PINGS
  | TIME_BETWEEN_BURST_SEQUENCES
  | NUMBER_PINGS
  | AVG_INTERVAL
  | POWER_CONTROL_REGISTER
  | COMPASS_UPDATE_RATE
  | BIN_LENGTH
  | MEASUREMENT_INTERVAL
  | WRAP_MODE
  | CLOCK_DEPLOY
  | ANALOG_INPUT_ADDR
  | SW_VERSION
  | WAVE_MEASUREMENT_MODE
  | DYN_PERCENTAGE_POSITION
  | WAVE_TRANSMIT_PULSE
  | WAVE_BLANKING_DISTANCE
  | WAVE_CELL_SIZE
  | NUMBER_DIAG_SAMPLES
  | NUMBER_SAMPLES_PER_BURST
  | ANALOG_OUTPUT_SCALE
  | USER_2_SPARE
  | DIAGNOSTIC_INTERVAL
  | ADJUSTMENT_SOUND_SPEED
  | NUMBER_SAMPLES_DIAGNOSTIC
  deriving DecidableEq

/-- Which conversion a descriptor's decode closure applies to the bytes
captured by its locator regex. -/
inductive DecoderKind
  | wordToInt
  | doubleWordToInt
  | wordsToDatetime
  | hexPairs
  deriving DecidableEq

/-- Which conversion a descriptor's encode function applies to a typed
value to produce wire bytes. -/
inductive EncoderKind
  | wordToStr
  | doubleWordToStr
  | identityStr
  | hexToBytes
  deriving DecidableEq

/-- ParameterDictVisibility values used in driver.py. -/
inductive Visibility
  | READ_ONLY
  | READ_WRITE
  | IMMUTABLE
  deriving DecidableEq

/-- ParameterDictType values used in driver.py. -/
inductive PType
  | INT
  | STRING
  deriving DecidableEq

/-- Typed parameter values: Python ints, byte strings, and the decoded
datetime lists returned by the clock conversion. -/
inductive PVal
  | int (n : Nat)
  | str (s : List Nat)
  | datetime (l : List Nat)
  deriving DecidableEq

/-- One registered parameter descriptor.  The locator regex
`^.{offset}(.{width}).*` under re.DOTALL is embedded as the
(offset, width) slice it captures. -/
structure ParamDesc where
  name : ParamName
  offset : Nat
  width : Nat
  decoder : DecoderKind
  encoder : EncoderKind
  ptype : PType
  visibility : Visibility
  defaultValue : Option PVal
  startupParam : Bool
  directAccess : Bool
  deriving DecidableEq

/-- The descriptors registered by `Protocol._build_param_dict`
(driver.py lines 274-608), in registration order, with the offset, width,
conversion pair, type, visibility and default of each `add_parameter`
call. -/
def paramTable : List ParamDesc :=
  [⟨.TRANSMIT_PULSE_LENGTH, 4, 2, .wordToInt, .wordToStr, .INT, .IMMUTABLE,
      some (.int 125), true, true⟩,
   ⟨.BLANKING_DISTANCE, 6, 2, .wordToInt, .wordToStr, .INT, .READ_WRITE,
      some (.int 49), true, true⟩,
   ⟨.RECEIVE_LENGTH, 8, 2, .wordToInt, .wordToStr, .INT, .IMMUTABLE,
      some (.int 32), true, true⟩,
   ⟨.TIME_BETWEEN_PINGS, 10, 2, .wordToInt, .wordToStr, .INT, .IMMUTABLE,
      some (.int 437), true, true⟩,
   ⟨.TIME_BETWEEN_BURST_SEQUENCES, 12, 2, .wordToInt, .wordToStr, .INT, .IMMUTABLE,
      some (.int 512), true, true⟩,
   ⟨.NUMBER_PINGS, 14, 2, .wordToInt, .wordToStr, .INT, .IMMUTABLE,
      some (.int 1), true, true⟩,
   ⟨.AVG_INTERVAL, 16, 2, .wordToInt, .wordToStr, .INT, .READ_WRITE,
      some (.int 1), true, true⟩,
   ⟨.POWER_CONTROL_REGISTER, 22, 2, .wordToInt, .wordToStr, .INT, .IMMUTABLE,
      some (.int 0), true, true⟩,
   ⟨.COMPASS_UPDATE_RATE, 30, 2, .wordToInt, .wordToStr, .INT, .READ_WRITE,
      some (.int 1), true, true⟩,
   ⟨.BIN_LENGTH, 36, 2, .wordToInt, .wordToStr, .INT, .IMMUTABLE,
      some (.int 7), true, true⟩,
   ⟨.MEASUREMENT_INTERVAL, 38, 2, .wordToInt, .wordToStr, .INT, .READ_WRITE,
      some (.int 1), true, true⟩,
   ⟨.WRAP_MODE, 46, 2, .wordToInt, .wordToStr, .INT, .IMMUTABLE,
      some (.int 0), true, true⟩,
   ⟨.CLOCK_DEPLOY, 48, 6, .wordsToDatetime, .identityStr, .STRING, .IMMUTABLE,
      some (.str [48, 48, 48, 48, 48, 48]), true, true⟩,
   ⟨.ANALOG_INPUT_ADDR, 70, 2, .wordToInt, .wordToStr, .STRING, .IMMUTABLE,
      some (.int 0), true, true⟩,
   ⟨.SW_VERSION, 72, 2, .wordToInt, .wordToStr, .STRING, .IMMUTABLE,
      some (.int 13902), true, true⟩,
   ⟨.WAVE_MEASUREMENT_MODE, 436, 2, .wordToInt, .wordToStr, .STRING, .IMMUTABLE,
      some (.int 0), true, true⟩,
   ⟨.DYN_PERCENTAGE_POSITION, 438, 2, .wordToInt, .wordToStr, .INT, .IMMUTABLE,
      some (.int 0), true, true⟩,
   ⟨.WAVE_TRANSMIT_PULSE, 440, 2, .wordToInt, .wordToStr, .INT, .IMMUTABLE,
      some (.int 0), true, true⟩,
   ⟨.WAVE_BLANKING_DISTANCE, 442, 2, .wordToInt, .wordToStr, .INT, .IMMUTABLE,
      some (.int 0), true, true⟩,
   ⟨.WAVE_CELL_SIZE, 444, 2, .wordToInt, .wordToStr, .INT, .IMMUTABLE,
      some (.int 0), true, true⟩,
   ⟨.NUMBER_DIAG_SAMPLES, 446, 2, .wordToInt, .wordToStr, .INT, .IMMUTABLE,
      some (.int 0), true, true⟩,
   ⟨.NUMBER_SAMPLES_PER_BURST, 452, 2, .wordToInt, .wordToStr, .INT, .IMMUTABLE,
      some (.int 0), true, true⟩,
   ⟨.ANALOG_OUTPUT_SCALE, 456, 2, .wordToInt, .wordToStr, .INT, .IMMUTABLE,
      some (.int 0), true, true⟩,
   ⟨.USER_2_SPARE, 454, 2, .hexPairs, .hexToBytes, .STRING, .READ_ONLY,
      none, false, false⟩,
   ⟨.DIAGNOSTIC_INTERVAL, 54, 4, .doubleWordToInt, .doubleWordToStr, .INT, .IMMUTABLE,
      some (.int 11250), true, true⟩,
   ⟨.ADJUSTMENT_SOUND_SPEED, 60, 2, .wordToInt, .wordToStr, .INT, .IMMUTABLE,
      some (.int 1525), true, true⟩,
   ⟨.NUMBER_SAMPLES_DIAGNOSTIC, 62, 2, .wordToInt, .wordToStr, .INT, .IMMUTABLE,
      some (.int 20), true, true⟩]

/-- Apply a descriptor's decode conversion to the bytes its locator
captured. -/
def decodeBytes (k : DecoderKind) (b : List Nat) : PVal :=
  match k with
  | .wordToInt => .int (convert_word_to_int b)
  | .doubleWordToInt => .int (convert_double_word_to_int b)
  | .wordsToDatetime => .datetime (convert_words_to_datetime b)
  | .hexPairs => .str (hexEncodeBytes b)

/-- Apply a descriptor's encode conversion to a typed value, producing
the wire bytes (junk [] on a value of the wrong shape, which the valid
domain excludes). -/
def encodeVal (k : EncoderKind) (v : PVal) : List Nat :=
  match k, v with
  | .wordToStr, .int n => word_to_string n
  | .doubleWordToStr, .int n => double_word_to_string n
  | .identityStr, .str s => s
  | .hexToBytes, .str s => hexDecodeStr s
  | _, _ => []

/-- Valid value domain of a descriptor, determined by its conversion
pair: 16-bit ints for word parameters, 32-bit ints for double-word
parameters, six-byte raw clock strings for the clock parameter, and
four-character lowercase hex strings for the hex spare. -/
def inDomain (d : ParamDesc) (v : PVal) : Bool :=
  match d.decoder, v with
  | .wordToInt, .int n => n < 65536
  | .doubleWordToInt, .int n => n < 4294967296
  | .wordsToDatetime, .str s => s.length == 6 && s.all (· < 256)
  | .hexPairs, .str s => s.length == 4 && s.all isLowerHexDigit
  | _, _ => false

/-! ### Frame sieve (driver.py sample structures, spec section 4.2) -/

/-- driver.py line 33: `VELOCITY_DATA_LEN = 42`. -/
def VELOCITY_DATA_LEN : Nat := 42

/-- driver.py line 34: the two sync bytes 0xA5 0x01. -/
def VELOCITY_HEADER_DATA_SYNC_BYTES : List Nat := [165, 1]

/-- driver.py line 36: the signature table the protocol passes to the
base sieve — one structure, sync 0xA5 0x01 with total frame length 42. -/
def VECTOR_SAMPLE_STRUCTURES : List (List Nat × Nat) :=
  [(VELOCITY_HEADER_DATA_SYNC_BYTES, VELOCITY_DATA_LEN)]

/-- Earliest declared structure whose sync bytes start the buffer,
returning its declared frame length; declaration order is the tie-break
for shared prefixes (spec rule 4). -/
def findSig (structs : List (List Nat × Nat)) (buf : List Nat) : Option Nat :=
  match structs with
  | [] => none
  | s :: rest => if s.1.isPrefixOf buf then some s.2 else findSig rest buf

/-- Whether the whole remaining buffer is a strict front part of some
declared sync pattern, so its bytes cannot yet be ruled out as the start
of a frame (spec rule 5: only conclusively unmatchable bytes are
discarded). -/
def mayStartSig (structs : List (List Nat × Nat)) (buf : List Nat) : Bool :=
  structs.any fun s => buf.isPrefixOf s.1 && buf.length < s.1.length

/-- Fueled worker for the sieve: scan the buffer left to right, emit each
complete frame whose declared signature starts here, wait (retaining the
buffer) on a signature with too few bytes or on a possible signature
front, and discard conclusively unmatchable leading bytes.  Fuel at least
the buffer length always suffices. -/
def sieveF (structs : List (List Nat × Nat)) :
    Nat → List Nat → List (List Nat) × List Nat
  | 0, buf => ([], buf)
  | fuel + 1, buf =>
    match buf with
    | [] => ([], [])
    | a :: rest =>
      match findSig structs (a :: rest) with
      | some len =>
        if 0 < len ∧ len ≤ (a :: rest).length then
          ((a :: rest).take len :: (sieveF structs fuel ((a :: rest).drop len)).1,
           (sieveF structs fuel ((a :: rest).drop len)).2)
        else ([], a :: rest)
      | none =>
        if mayStartSig structs (a :: rest) then ([], a :: rest)
        else sieveF structs fuel rest

/-- Modelled from the spec: the base-class streaming sieve
(`NortekInstrumentProtocol.chunker_sieve_function` together with the
`StringChunker` buffering, both absent from src), per the spec's sieve
algorithm rules 1-5: extract every complete frame of a declared
signature, never emit a partial frame, retain bytes that may still open a
frame, discard proven garbage. -/
def baseChunkerSieve (structs : List (List Nat × Nat)) (buf : List Nat) :
    List (List Nat) × List Nat :=
  sieveF structs buf.length buf

/-- Embeds driver.py lines 196-198: the protocol's sieve entry point
ignores its `add_structs` argument and always scans with the fixed
velocity signature table. -/
def chunker_sieve_function (raw_data : List Nat)
    (add_structs : List (List Nat × Nat)) : List (List Nat) × List Nat :=
  baseChunkerSieve VECTOR_SAMPLE_STRUCTURES raw_data

/-- Feed a sequence of chunks through the velocity sieve, accumulating
the frames of every call and threading the leftover buffer. -/
def feedAll (buf : List Nat) : List (List Nat) → List (List Nat) × List Nat
  | [] => ([], buf)
  | c :: cs =>
    ((baseChunkerSieve VECTOR_SAMPLE_STRUCTURES (buf ++ c)).1 ++
       (feedAll (baseChunkerSieve VECTOR_SAMPLE_STRUCTURES (buf ++ c)).2 cs).1,
     (feedAll (baseChunkerSieve VECTOR_SAMPLE_STRUCTURES (buf ++ c)).2 cs).2)

/-- Fueled position-tracking variant of the velocity sieve: identical
scan, but each emitted frame is paired with its absolute start offset in
the stream. -/
def sievePosF : Nat → Nat → List Nat → List (Nat × List Nat) × List Nat
  | 0, _, buf => ([], buf)
  | fuel + 1, pos, buf =>
    match buf with
    | [] => ([], [])
    | a :: rest =>
      match findSig VECTOR_SAMPLE_STRUCTURES (a :: rest) with
      | some len =>
        if 0 < len ∧ len ≤ (a :: rest).length then
          ((pos, (a :: rest).take len) :: (sievePosF fuel (pos + len) ((a :: rest).drop len)).1,
           (sievePosF fuel (pos + len) ((a :: rest).drop len)).2)
        else ([], a :: rest)
      | none =>
        if mayStartSig VECTOR_SAMPLE_STRUCTURES (a :: rest) then ([], a :: rest)
        else sievePosF fuel (pos + 1) rest

/-- Position-tracking velocity sieve. -/
def sievePos (pos : Nat) (buf : List Nat) : List (Nat × List Nat) × List Nat :=
  sievePosF buf.length pos buf

/-! ### Velocity sample extractor (driver.py lines 38-141) -/

/-- The (absolute offset, width) slice captured by each of the 19 groups
of VELOCITY_DATA_PATTERN (driver.py lines 38-39): two sync bytes, then
`(.{6})(.{2})x7(.{1})(.{1})(.{2})x5(.{1})x3(.{3})` under re.DOTALL. -/
def velGroupBounds : List (Nat × Nat) :=
  [(2, 6), (8, 2), (10, 2), (12, 2), (14, 2), (16, 2), (18, 2), (20, 2),
   (22, 1), (23, 1), (24, 2), (26, 2), (28, 2), (30, 2), (32, 2),
   (34, 1), (35, 1), (36, 1), (37, 3)]

/-- Embeds `VELOCITY_DATA_REGEX.match(raw_data)` (driver.py line 91).
Under re.DOTALL every group byte is arbitrary, and `re.match` anchors
only at the front, so the pattern matches exactly when the data has at
least 40 bytes and begins with the sync pair 0xA5 0x01; each group is
then the corresponding fixed slice. -/
def velocityDataMatch (d : List Nat) : Option (List (List Nat)) :=
  if 40 ≤ d.length ∧ d.take 2 = [165, 1] then
    some (velGroupBounds.map fun p => (d.drop p.1).take p.2)
  else none

/-- Fields of AquadoppDwVelocityDataParticle
(AquadoppDwVelocityDataParticleKey, driver.py lines 55-75). -/
structure VelocityParticle where
  timestamp : List Nat
  error : Nat
  analog1 : Nat
  battery_voltage : Nat
  sound_speed : Nat
  heading : Nat
  pitch : Nat
  roll : Nat
  pressure : Nat
  status : Nat
  temperature : Nat
  velocity_beam1 : Nat
  velocity_beam2 : Nat
  velocity_beam3 : Nat
  amplitude_beam1 : Nat
  amplitude_beam2 : Nat
  amplitude_beam3 : Nat
  deriving DecidableEq

/-- Embeds `AquadoppDwVelocityDataParticle._build_particle` (driver.py
lines 99-141) over the 19 match groups: each field is its group run
through the declared conversion; Python `ord` of a one-character group is
the group's single byte; group 19 (the trailing three bytes) is never
read.  The junk branch for a group list of the wrong shape is never
reached, since the regex match always yields 19 groups. -/
def build_particle : List (List Nat) → VelocityParticle
  | [g1, g2, g3, g4, g5, g6, g7, g8, g9, g10,
     g11, g12, g13, g14, g15, g16, g17, g18, _g19] =>
    { timestamp := convert_time g1
      error := convert_word_to_int g2
      analog1 := convert_word_to_int g3
      battery_voltage := convert_word_to_int g4
      sound_speed := convert_word_to_int g5
      heading := convert_word_to_int g6
      pitch := convert_word_to_int g7
      roll := convert_word_to_int g8
      pressure := g9.getD 0 0 * 65536 + convert_word_to_int g11
      status := g10.getD 0 0
      temperature := convert_word_to_int g12
      velocity_beam1 := convert_word_to_int g13
      velocity_beam2 := convert_word_to_int g14
      velocity_beam3 := convert_word_to_int g15
      amplitude_beam1 := g16.getD 0 0
      amplitude_beam2 := g17.getD 0 0
      amplitude_beam3 := g18.getD 0 0 }
  | _ =>
    { timestamp := [], error := 0, analog1 := 0, battery_voltage := 0,
      sound_speed := 0, heading := 0, pitch := 0, roll := 0, pressure := 0,
      status := 0, temperature := 0, velocity_beam1 := 0, velocity_beam2 := 0,
      velocity_beam3 := 0, amplitude_beam1 := 0, amplitude_beam2 := 0,
      amplitude_beam3 := 0 }

/-- The SampleException raised when the regex does not match. -/
inductive SampleErr
  | sampleError
  deriving DecidableEq

/-- Embeds `AquadoppDwVelocityDataParticle._build_parsed_values`
(driver.py lines 84-97): match the velocity regex, raise SampleException
on no match, otherwise build the particle. -/
def build_parsed_values (d : List Nat) : Except SampleErr VelocityParticle :=
  match velocityDataMatch d with
  | none => .error .sampleError
  | some gs => .ok (build_particle gs)

/-! ### Parameter set machinery (spec sections 4.1 and 4.4) -/

/-- Shadow parameter store: the in-memory cached value of each
parameter. -/
def Shadow : Type := ParamName → Option PVal

/-- Shadow store with no decoded values yet. -/
def emptyShadow : Shadow := fun _ => none

/-- Commit one value into the shadow store. -/
def updateShadow (st : Shadow) (n : ParamName) (v : PVal) : Shadow :=
  fun m => if m = n then some v else st m

/-- Descriptor lookup by name in the registered table. -/
def lookupDesc (n : ParamName) : Option ParamDesc :=
  paramTable.find? fun d => d.name == n

/-- Worker for decoding a configuration block: walk the registered
descriptors in order and store the decoded slice of every descriptor
whose byte range fits inside the block. -/
def decodeFromAux : List ParamDesc → List Nat → Shadow → Shadow
  | [], _, st => st
  | d :: ds, block, st =>
    decodeFromAux ds block
      (if d.offset + d.width ≤ block.length then
        updateShadow st d.name (decodeBytes d.decoder ((block.drop d.offset).take d.width))
      else st)

/-- Modelled from the spec: `decode_from(rawBlock)` of the parameter
dictionary (base-class update machinery absent from src) — run every
registered locator regex `^.{offset}(.{width}).*` over the block and
store each decoded value. -/
def decode_from (block : List Nat) (st : Shadow) : Shadow :=
  decodeFromAux paramTable block st

/-- Failures of a single set operation (spec section 7 taxonomy). -/
inductive SetErr
  | parameterError
  | timeoutError
  deriving DecidableEq

/-- Modelled from the spec: the parameter dictionary's
`set(name, newValue)` in the COMMAND state, with `deployed` recording
that the device has left its unconfigured state and `wOk` abstracting
whether the device acknowledges the encoded write.  Unknown names,
read-only or (once deployed) immutable descriptors, and out-of-domain
values fail with ParameterError; a missing ack fails with TimeoutError;
only an acknowledged write commits the shadow value. -/
def trySet (deployed : Bool) (wOk : ParamName → PVal → Bool)
    (st : Shadow) (n : ParamName) (v : PVal) : Shadow × Option SetErr :=
  match lookupDesc n with
  | none => (st, some .parameterError)
  | some d =>
    if d.visibility = .READ_ONLY then (st, some .parameterError)
    else if d.visibility = .IMMUTABLE ∧ deployed then (st, some .parameterError)
    else if inDomain d v then
      if wOk n v then (updateShadow st n v, none) else (st, some .timeoutError)
    else (st, some .parameterError)

/-- Embeds driver.py lines 240-255: the per-parameter translation lookup
of the set handler.  The source's translation loop only logs a TODO and
translates nothing, so every hook is the documented identity default. -/
def translateHook (n : ParamName) : PVal → PVal :=
  fun v => v

/-- Apply every translation hook to its parameter's value, before any
write is issued. -/
def translateBatch (batch : List (ParamName × PVal)) : List (ParamName × PVal) :=
  batch.map fun p => (p.1, translateHook p.1 p.2)

/-- Look a parameter up in a translated batch. -/
def batchLookup (batch : List (ParamName × PVal)) : ParamName → Option PVal :=
  fun n => (batch.find? fun p => p.1 == n).map Prod.snd

/-- Worker for the batch write phase: walk the descriptors in the
dictionary's declared order, write each parameter present in the batch,
and abort on the first failed write, reporting that parameter's name and
keeping every earlier commit. -/
def setParamsAux (wOk : ParamName → PVal → Bool) :
    List ParamDesc → Shadow → (ParamName → Option PVal) → Shadow × Option ParamName
  | [], st, _ => (st, none)
  | d :: ds, st, batch =>
    match batch d.name with
    | none => setParamsAux wOk ds st batch
    | some v =>
      if wOk d.name v then setParamsAux wOk ds (updateShadow st d.name v) batch
      else (st, some d.name)

/-- Modelled from the spec: `_set_params` (base class absent from src)
under the spec's batch policy — translation hooks first, then writes in
the dictionary's declared order, aborting on the first failure with the
failing parameter's name and no rollback of earlier commits.  `wOk`
abstracts whether the device accepts an individual write. -/
def set_params (wOk : ParamName → PVal → Bool) (st : Shadow)
    (batch : List (ParamName × PVal)) : Shadow × Option ParamName :=
  setParamsAux wOk paramTable st (batchLookup (translateBatch batch))

/-- Dynamic Python values the set handler can receive as positional
arguments. -/
inductive PyVal
  | dict (m : List (ParamName × PVal))
  | bool (b : Bool)
  | other
  deriving DecidableEq

/-- Errors out of the set handler: the InstrumentParameterException of
the argument checks, or a failed write reported from the batch. -/
inductive HandlerErr
  | parameterError
  | setFailed (n : ParamName)
  deriving DecidableEq

/-- Embeds `Protocol._handler_command_set` (driver.py lines 211-258):
args[0] missing raises InstrumentParameterException, args[1] missing
defaults startup to False, a non-dict args[0] raises
InstrumentParameterException, otherwise the translation loop (which only
logs) runs and `_set_params` is issued, and the handler returns the pair
(None, None).  The startup flag is computed exactly as in the source and
handed to the batch, which the model's `_set_params` does not further
inspect. -/
def handler_command_set (wOk : ParamName → PVal → Bool) (args : List PyVal)
    (st : Shadow) : Shadow × Except HandlerErr (Option Unit × Option Unit) :=
  match args.get? 0 with
  | none => (st, .error .parameterError)
  | some a0 =>
    let startup := args.getD 1 (.bool false)
    match a0, startup with
    | .dict m, _ =>
      match set_params wOk st m with
      | (st2, none) => (st2, .ok (none, none))
      | (st2, some n) => (st2, .error (.setFailed n))
    | _, _ => (st, .error .parameterError)

/-! ### Helper lemmas: conversion round trips -/

theorem convert_word_roundtrip (n : Nat) (h : n < 65536) :
    convert_word_to_int (word_to_string n) = n := by
  simp [convert_word_to_int, word_to_string]
  omega

theorem convert_double_word_roundtrip (n : Nat) (h : n < 4294967296) :
    convert_double_word_to_int (double_word_to_string n) = n := by
  simp [convert_double_word_to_int, double_word_to_string]
  omega

theorem hexDigitChr_hexDigitVal (c : Nat) (h : isLowerHexDigit c = true) :
    hexDigitChr (hexDigitVal c) = c := by
  simp [isLowerHexDigit] at h
  unfold hexDigitVal hexDigitChr
  split_ifs <;> omega

theorem hexDigitVal_lt (c : Nat) : hexDigitVal c < 16 := by
  unfold hexDigitVal
  split_ifs <;> omega

theorem hex_roundtrip (s : List Nat) (h4 : s.length = 4)
    (hall : s.all isLowerHexDigit = true) :
    hexEncodeBytes (hexDecodeStr s) = s := by
  rcases s with _ | ⟨a, _ | ⟨b, _ | ⟨c, _ | ⟨d, _ | ⟨e, t⟩⟩⟩⟩⟩ <;> simp at h4
  simp only [List.all_cons, List.all_nil, Bool.and_eq_true, Bool.and_true] at hall
  obtain ⟨ha, hb, hc, hd⟩ := hall
  have eb := hexDigitVal_lt b
  have ed := hexDigitVal_lt d
  have e1 : (hexDigitVal a * 16 + hexDigitVal b) / 16 = hexDigitVal a := by omega
  have e2 : (hexDigitVal a * 16 + hexDigitVal b) % 16 = hexDigitVal b := by omega
  have e3 : (hexDigitVal c * 16 + hexDigitVal d) / 16 = hexDigitVal c := by omega
  have e4 : (hexDigitVal c * 16 + hexDigitVal d) % 16 = hexDigitVal d := by omega
  simp [hexDecodeStr, hexEncodeBytes, e1, e2, e3, e4,
    hexDigitChr_hexDigitVal a ha, hexDigitChr_hexDigitVal b hb,
    hexDigitChr_hexDigitVal c hc, hexDigitChr_hexDigitVal d hd]

/-! ### Helper lemmas: list slices as indexed bytes -/

theorem drop_take_pair : ∀ (l : List Nat) (i : Nat), i + 2 ≤ l.length →
    (l.drop i).take 2 = [l.getD i 0, l.getD (i + 1) 0] := by
  intro l i
  induction i generalizing l with
  | zero =>
    intro h
    rcases l with _ | ⟨a, _ | ⟨b, t⟩⟩ <;> simp at h ⊢
  | succ i ih =>
    intro h
    rcases l with _ | ⟨a, t⟩
    · simp at h
    · simpa using ih t (by simpa using h)

theorem drop_take_single : ∀ (l : List Nat) (i : Nat), i + 1 ≤ l.length →
    (l.drop i).take 1 = [l.getD i 0] := by
  intro l i
  induction i generalizing l with
  | zero =>
    intro h
    rcases l with _ | ⟨a, t⟩ <;> simp at h ⊢
  | succ i ih =>
    intro h
    rcases l with _ | ⟨a, t⟩
    · simp at h
    · simpa using ih t (by simpa using h)

/-! ### Helper lemmas: configuration-block decoding -/

theorem decodeFromAux_ne (ds : List ParamDesc) (block : List Nat) (st : Shadow)
    (n : ParamName) (h : ∀ d ∈ ds, d.name ≠ n) :
    decodeFromAux ds block st n = st n := by
  induction ds generalizing st with
  | nil => rfl
  | cons d ds ih =>
    have hd : d.name ≠ n := h d (List.mem_cons_self d ds)
    have ht : ∀ x ∈ ds, x.name ≠ n := fun x hx => h x (List.mem_cons_of_mem d hx)
    rw [decodeFromAux, ih _ ht]
    split
    · simp only [updateShadow]
      rw [if_neg fun hc => hd hc.symm]
    · rfl

/-! ### Helper lemmas: the sieve -/

theorem sieveF_fuel_inv (structs : List (List Nat × Nat)) :
    ∀ f1 f2 (buf : List Nat), buf.length ≤ f1 → buf.length ≤ f2 →
      sieveF structs f1 buf = sieveF structs f2 buf := by
  intro f1
  induction f1 with
  | zero =>
    intro f2 buf h1 h2
    have hb : buf = [] := List.eq_nil_of_length_eq_zero (Nat.le_zero.mp h1)
    subst hb
    cases f2 <;> rfl
  | succ f1 ih =>
    intro f2 buf h1 h2
    cases buf with
    | nil => cases f2 <;> rfl
    | cons a rest =>
      cases f2 with
      | zero => simp at h2
      | succ f2 =>
        simp only [sieveF]
        rcases hfs : findSig structs (a :: rest) with _ | len <;> simp only [hfs]
        · split
          · rfl
          · exact ih f2 rest (by simp at h1; omega) (by simp at h2; omega)
        · split
          · rw [ih f2 ((a :: rest).drop len)
              (by simp at h1 ⊢; omega) (by simp at h2 ⊢; omega)]
          · rfl

/-- One-step unfolding of the sieve in terms of itself, independent of
fuel. -/
theorem sieve_step (structs : List (List Nat × Nat)) (buf : List Nat) :
    baseChunkerSieve structs buf =
      match buf with
      | [] => ([], [])
      | a :: rest =>
        match findSig structs (a :: rest) with
        | some len =>
          if 0 < len ∧ len ≤ (a :: rest).length then
            ((a :: rest).take len ::
               (baseChunkerSieve structs ((a :: rest).drop len)).1,
             (baseChunkerSieve structs ((a :: rest).drop len)).2)
          else ([], a :: rest)
        | none =>
          if mayStartSig structs (a :: rest) then ([], a :: rest)
          else baseChunkerSieve structs rest := by
  cases buf with
  | nil => rfl
  | cons a rest =>
    show sieveF structs (rest.length + 1) (a :: rest) = _
    simp only [sieveF, baseChunkerSieve]
    rcases hfs : findSig structs (a :: rest) with _ | len <;> simp only [hfs]
    split
    · rename_i hg
      have hle : ((a :: rest).drop len).length ≤ rest.length := by
        simp
        omega
      rw [sieveF_fuel_inv structs rest.length ((a :: rest).drop len).length
        ((a :: rest).drop len) hle le_rfl]
    · rfl

theorem findSig_vel_nil : findSig VECTOR_SAMPLE_STRUCTURES [] = none := by
  simp [findSig, VECTOR_SAMPLE_STRUCTURES, VELOCITY_HEADER_DATA_SYNC_BYTES, List.isPrefixOf]

theorem findSig_vel_one (a : Nat) : findSig VECTOR_SAMPLE_STRUCTURES [a] = none := by
  simp [findSig, VECTOR_SAMPLE_STRUCTURES, VELOCITY_HEADER_DATA_SYNC_BYTES, List.isPrefixOf]

theorem findSig_vel_cons2 (a b : Nat) (l : List Nat) :
    findSig VECTOR_SAMPLE_STRUCTURES (a :: b :: l) =
      if a = 165 ∧ b = 1 then some 42 else none := by
  by_cases h1 : a = 165 <;> by_cases h2 : b = 1 <;>
    simp [findSig, VECTOR_SAMPLE_STRUCTURES, VELOCITY_HEADER_DATA_SYNC_BYTES,
      VELOCITY_DATA_LEN, List.isPrefixOf, h1, h2] <;> omega

theorem mayStartSig_vel_one_eq : mayStartSig VECTOR_SAMPLE_STRUCTURES [165] = true := by
  decide

theorem mayStartSig_vel_one_ne (a : Nat) (h : a ≠ 165) :
    mayStartSig VECTOR_SAMPLE_STRUCTURES [a] = false := by
  simp [mayStartSig, VECTOR_SAMPLE_STRUCTURES, VELOCITY_HEADER_DATA_SYNC_BYTES,
    List.isPrefixOf, h]

theorem mayStartSig_vel_cons2 (a b : Nat) (l : List Nat) :
    mayStartSig VECTOR_SAMPLE_STRUCTURES (a :: b :: l) = false := by
  simp [mayStartSig, VECTOR_SAMPLE_STRUCTURES, VELOCITY_HEADER_DATA_SYNC_BYTES,
    List.isPrefixOf]

theorem sieve_vel_nil : baseChunkerSieve VECTOR_SAMPLE_STRUCTURES [] = ([], []) := rfl

theorem sieve_vel_one (a : Nat) :
    baseChunkerSieve VECTOR_SAMPLE_STRUCTURES [a] =
      if a = 165 then ([], [a]) else ([], []) := by
  rw [sieve_step]
  dsimp only
  rw [findSig_vel_one]
  by_cases ha : a = 165
  · subst ha
    rw [mayStartSig_vel_one_eq]
    simp
  · rw [mayStartSig_vel_one_ne a ha]
    simp [ha, sieve_vel_nil]

theorem sieve_vel_cons2 (a b : Nat) (l : List Nat) :
    baseChunkerSieve VECTOR_SAMPLE_STRUCTURES (a :: b :: l) =
      if a = 165 ∧ b = 1 then
        if 42 ≤ l.length + 2 then
          ((a :: b :: l).take 42 ::
             (baseChunkerSieve VECTOR_SAMPLE_STRUCTURES ((a :: b :: l).drop 42)).1,
           (baseChunkerSieve VECTOR_SAMPLE_STRUCTURES ((a :: b :: l).drop 42)).2)
        else ([], a :: b :: l)
      else baseChunkerSieve VECTOR_SAMPLE_STRUCTURES (b :: l) := by
  rw [sieve_step]
  dsimp only
  rw [findSig_vel_cons2, mayStartSig_vel_cons2]
  by_cases hs : a = 165 ∧ b = 1
  · rw [if_pos hs, if_pos hs]
    dsimp only
    have hlen2 : (a :: b :: l).length = l.length + 2 := by simp
    rw [hlen2]
    by_cases hf : 42 ≤ l.length + 2
    · rw [if_pos ⟨by norm_num, hf⟩, if_pos hf]
    · rw [if_neg (fun hc => hf hc.2), if_neg hf]
  · rw [if_neg hs, if_neg hs]
    simp

/-- Feeding more bytes resumes the scan exactly where the retained
buffer left off: the sieve of a concatenation is the frames of the first
part followed by the frames of its leftover joined with the extension. -/
theorem sieve_append (buf ext : List Nat) :
    baseChunkerSieve VECTOR_SAMPLE_STRUCTURES (buf ++ ext) =
      ((baseChunkerSieve VECTOR_SAMPLE_STRUCTURES buf).1 ++
         (baseChunkerSieve VECTOR_SAMPLE_STRUCTURES
            ((baseChunkerSieve VECTOR_SAMPLE_STRUCTURES buf).2 ++ ext)).1,
       (baseChunkerSieve VECTOR_SAMPLE_STRUCTURES
          ((baseChunkerSieve VECTOR_SAMPLE_STRUCTURES buf).2 ++ ext)).2) := by
  suffices H : ∀ n (buf ext : List Nat), buf.length ≤ n →
      baseChunkerSieve VECTOR_SAMPLE_STRUCTURES (buf ++ ext) =
        ((baseChunkerSieve VECTOR_SAMPLE_STRUCTURES buf).1 ++
           (baseChunkerSieve VECTOR_SAMPLE_STRUCTURES
              ((baseChunkerSieve VECTOR_SAMPLE_STRUCTURES buf).2 ++ ext)).1,
         (baseChunkerSieve VECTOR_SAMPLE_STRUCTURES
            ((baseChunkerSieve VECTOR_SAMPLE_STRUCTURES buf).2 ++ ext)).2) by
    exact H buf.length buf ext le_rfl
  intro n
  induction n with
  | zero =>
    intro buf ext h
    have hb : buf = [] := List.eq_nil_of_length_eq_zero (Nat.le_zero.mp h)
    subst hb
    simp [sieve_vel_nil]
  | succ n ih =>
    intro buf ext h
    rcases buf with _ | ⟨a, _ | ⟨b, t⟩⟩
    · simp [sieve_vel_nil]
    · by_cases ha : a = 165
      · subst ha
        rw [sieve_vel_one 165, if_pos rfl]
        simp
      · rw [sieve_vel_one a, if_neg ha]
        simp only [List.nil_append, List.cons_append]
        have hone : baseChunkerSieve VECTOR_SAMPLE_STRUCTURES (a :: ext) =
            baseChunkerSieve VECTOR_SAMPLE_STRUCTURES ext := by
          rcases ext with _ | ⟨e, s⟩
          · rw [sieve_vel_one a, if_neg ha, sieve_vel_nil]
          · rw [sieve_vel_cons2 a e s, if_neg (fun hc => ha hc.1)]
        rw [hone]
    · by_cases hsig : a = 165 ∧ b = 1
      · by_cases hfit : 42 ≤ t.length + 2
        · have hbig : 42 ≤ (a :: b :: t).length := by simp; omega
          have hfit2 : 42 ≤ (t ++ ext).length + 2 := by simp; omega
          have e1 : baseChunkerSieve VECTOR_SAMPLE_STRUCTURES ((a :: b :: t) ++ ext) =
              (((a :: b :: t) ++ ext).take 42 ::
                 (baseChunkerSieve VECTOR_SAMPLE_STRUCTURES (((a :: b :: t) ++ ext).drop 42)).1,
               (baseChunkerSieve VECTOR_SAMPLE_STRUCTURES (((a :: b :: t) ++ ext).drop 42)).2) := by
            simp only [List.cons_append]
            rw [sieve_vel_cons2, if_pos hsig, if_pos hfit2]
          rw [e1, List.take_append_of_le_length hbig, List.drop_append_of_le_length hbig]
          rw [sieve_vel_cons2 a b t, if_pos hsig, if_pos hfit]
          have hd : ((a :: b :: t).drop 42).length ≤ n := by simp at h ⊢; omega
          rw [ih ((a :: b :: t).drop 42) ext hd]
          simp
        · rw [sieve_vel_cons2 a b t, if_pos hsig, if_neg hfit]
          simp
      · have e1 : baseChunkerSieve VECTOR_SAMPLE_STRUCTURES ((a :: b :: t) ++ ext) =
            baseChunkerSieve VECTOR_SAMPLE_STRUCTURES ((b :: t) ++ ext) := by
          simp only [List.cons_append]
          rw [sieve_vel_cons2, if_neg hsig]
        rw [e1, sieve_vel_cons2 a b t, if_neg hsig]
        exact ih (b :: t) ext (by simp at h ⊢; omega)

/-- Feeding a non-empty chunk sequence equals sieving the concatenation
of the initial buffer with all the chunks at once. -/
theorem feedAll_eq_join : ∀ (c : List Nat) (cs : List (List Nat)) (buf : List Nat),
    feedAll buf (c :: cs) =
      baseChunkerSieve VECTOR_SAMPLE_STRUCTURES (buf ++ (c :: cs).join) := by
  intro c cs
  induction cs generalizing c with
  | nil =>
    intro buf
    simp [feedAll]
  | cons c2 cs ih =>
    intro buf
    rw [feedAll]
    rw [ih c2 (baseChunkerSieve VECTOR_SAMPLE_STRUCTURES (buf ++ c)).2]
    have hj : (c :: c2 :: cs).join = c ++ (c2 :: cs).join := rfl
    rw [hj, ← List.append_assoc]
    rw [sieve_append (buf ++ c) ((c2 :: cs).join)]

theorem sievePosF_fuel_inv :
    ∀ f1 f2 pos (buf : List Nat), buf.length ≤ f1 → buf.length ≤ f2 →
      sievePosF f1 pos buf = sievePosF f2 pos buf := by
  intro f1
  induction f1 with
  | zero =>
    intro f2 pos buf h1 h2
    have hb : buf = [] := List.eq_nil_of_length_eq_zero (Nat.le_zero.mp h1)
    subst hb
    cases f2 <;> rfl
  | succ f1 ih =>
    intro f2 pos buf h1 h2
    cases buf with
    | nil => cases f2 <;> rfl
    | cons a rest =>
      cases f2 with
      | zero => simp at h2
      | succ f2 =>
        simp only [sievePosF]
        rcases hfs : findSig VECTOR_SAMPLE_STRUCTURES (a :: rest) with _ | len <;>
          simp only [hfs]
        · split
          · rfl
          · exact ih f2 (pos + 1) rest (by simp at h1; omega) (by simp at h2; omega)
        · split
          · rw [ih f2 (pos + len) ((a :: rest).drop len)
              (by simp at h1 ⊢; omega) (by simp at h2 ⊢; omega)]
          · rfl

theorem sievePos_step (pos : Nat) (buf : List Nat) :
    sievePos pos buf =
      match buf with
      | [] => ([], [])
      | a :: rest =>
        match findSig VECTOR_SAMPLE_STRUCTURES (a :: rest) with
        | some len =>
          if 0 < len ∧ len ≤ (a :: rest).length then
            ((pos, (a :: rest).take len) ::
               (sievePos (pos + len) ((a :: rest).drop len)).1,
             (sievePos (pos + len) ((a :: rest).drop len)).2)
          else ([], a :: rest)
        | none =>
          if mayStartSig VECTOR_SAMPLE_STRUCTURES (a :: rest) then ([], a :: rest)
          else sievePos (pos + 1) rest := by
  cases buf with
  | nil => rfl
  | cons a rest =>
    show sievePosF (rest.length + 1) pos (a :: rest) = _
    simp only [sievePosF, sievePos]
    rcases hfs : findSig VECTOR_SAMPLE_STRUCTURES (a :: rest) with _ | len <;>
      simp only [hfs]
    split
    · rename_i hg
      have hle : ((a :: rest).drop len).length ≤ rest.length := by
        simp
        omega
      rw [sievePosF_fuel_inv rest.length ((a :: rest).drop len).length
        (pos + len) ((a :: rest).drop len) hle le_rfl]
    · rfl

theorem sievePos_vel_nil (pos : Nat) : sievePos pos [] = ([], []) := rfl

theorem sievePos_vel_one (pos a : Nat) :
    sievePos pos [a] = if a = 165 then ([], [a]) else ([], []) := by
  rw [sievePos_step]
  dsimp only
  rw [findSig_vel_one]
  by_cases ha : a = 165
  · subst ha
    rw [mayStartSig_vel_one_eq]
    simp
  · rw [mayStartSig_vel_one_ne a ha]
    simp [ha, sievePos_vel_nil]

theorem sievePos_vel_cons2 (pos a b : Nat) (l : List Nat) :
    sievePos pos (a :: b :: l) =
      if a = 165 ∧ b = 1 then
        if 42 ≤ l.length + 2 then
          ((pos, (a :: b :: l).take 42) ::
             (sievePos (pos + 42) ((a :: b :: l).drop 42)).1,
           (sievePos (pos + 42) ((a :: b :: l).drop 42)).2)
        else ([], a :: b :: l)
      else sievePos (pos + 1) (b :: l) := by
  rw [sievePos_step]
  dsimp only
  rw [findSig_vel_cons2, mayStartSig_vel_cons2]
  by_cases hs : a = 165 ∧ b = 1
  · rw [if_pos hs, if_pos hs]
    dsimp only
    have hlen2 : (a :: b :: l).length = l.length + 2 := by simp
    rw [hlen2]
    by_cases hf : 42 ≤ l.length + 2
    · rw [if_pos ⟨by norm_num, hf⟩, if_pos hf]
    · rw [if_neg (fun hc => hf hc.2), if_neg hf]
  · rw [if_neg hs, if_neg hs]
    simp

theorem sievePos_map_snd : ∀ n pos (buf : List Nat), buf.length ≤ n →
    (sievePos pos buf).1.map Prod.snd =
      (baseChunkerSieve VECTOR_SAMPLE_STRUCTURES buf).1 := by
  intro n
  induction n with
  | zero =>
    intro pos buf h
    have hb : buf = [] := List.eq_nil_of_length_eq_zero (Nat.le_zero.mp h)
    subst hb
    simp [sievePos_vel_nil, sieve_vel_nil]
  | succ n ih =>
    intro pos buf h
    rcases buf with _ | ⟨a, _ | ⟨b, t⟩⟩
    · simp [sievePos_vel_nil, sieve_vel_nil]
    · rw [sievePos_vel_one, sieve_vel_one]
      by_cases ha : a = 165 <;> simp [ha]
    · rw [sievePos_vel_cons2, sieve_vel_cons2]
      by_cases hsig : a = 165 ∧ b = 1
      · by_cases hfit : 42 ≤ t.length + 2
        · rw [if_pos hsig, if_pos hsig, if_pos hfit, if_pos hfit]
          simp only [List.map_cons]
          rw [ih (pos + 42) ((a :: b :: t).drop 42) (by simp at h ⊢; omega)]
        · rw [if_pos hsig, if_pos hsig, if_neg hfit, if_neg hfit]
          simp
      · rw [if_neg hsig, if_neg hsig]
        exact ih (pos + 1) (b :: t) (by simp at h ⊢; omega)

theorem sievePos_fst_ge : ∀ n pos (buf : List Nat), buf.length ≤ n →
    ∀ e ∈ (sievePos pos buf).1, pos ≤ e.1 := by
  intro n
  induction n with
  | zero =>
    intro pos buf h
    have hb : buf = [] := List.eq_nil_of_length_eq_zero (Nat.le_zero.mp h)
    subst hb
    simp [sievePos_vel_nil]
  | succ n ih =>
    intro pos buf h
    rcases buf with _ | ⟨a, _ | ⟨b, t⟩⟩
    · simp [sievePos_vel_nil]
    · rw [sievePos_vel_one]
      by_cases ha : a = 165 <;> simp [ha]
    · rw [sievePos_vel_cons2]
      by_cases hsig : a = 165 ∧ b = 1
      · by_cases hfit : 42 ≤ t.length + 2
        · rw [if_pos hsig, if_pos hfit]
          intro e he
          rcases List.mem_cons.mp he with he1 | he2
          · subst he1; exact le_rfl
          · have := ih (pos + 42) ((a :: b :: t).drop 42)
              (by simp at h ⊢; omega) e he2
            omega
        · rw [if_pos hsig, if_neg hfit]
          simp
      · rw [if_neg hsig]
        intro e he
        have := ih (pos + 1) (b :: t) (by simp at h ⊢; omega) e he
        omega

theorem sievePos_chain : ∀ n pos (buf : List Nat), buf.length ≤ n →
    List.Chain' (fun x y : Nat × List Nat => x.1 < y.1) (sievePos pos buf).1 := by
  intro n
  induction n with
  | zero =>
    intro pos buf h
    have hb : buf = [] := List.eq_nil_of_length_eq_zero (Nat.le_zero.mp h)
    subst hb
    simp [sievePos_vel_nil]
  | succ n ih =>
    intro pos buf h
    rcases buf with _ | ⟨a, _ | ⟨b, t⟩⟩
    · simp [sievePos_vel_nil]
    · rw [sievePos_vel_one]
      by_cases ha : a = 165 <;> simp [ha]
    · rw [sievePos_vel_cons2]
      by_cases hsig : a = 165 ∧ b = 1
      · by_cases hfit : 42 ≤ t.length + 2
        · rw [if_pos hsig, if_pos hfit]
          refine List.chain'_cons'.mpr ⟨?_, ih (pos + 42) ((a :: b :: t).drop 42)
            (by simp at h ⊢; omega)⟩
          intro y hy
          have hmem : y ∈ (sievePos (pos + 42) ((a :: b :: t).drop 42)).1 :=
            List.mem_of_mem_head? hy
          have := sievePos_fst_ge n (pos + 42) ((a :: b :: t).drop 42)
            (by simp at h ⊢; omega) y hmem
          simp only []
          omega
        · rw [if_pos hsig, if_neg hfit]
          simp
      · rw [if_neg hsig]
        exact ih (pos + 1) (b :: t) (by simp at h ⊢; omega)

/-! ### Claim theorems -/

def transmitPulseDesc : ParamDesc :=
  ⟨.TRANSMIT_PULSE_LENGTH, 4, 2, .wordToInt, .wordToStr, .INT, .IMMUTABLE,
    some (.int 125), true, true⟩

def clockDeployDesc : ParamDesc :=
  ⟨.CLOCK_DEPLOY, 48, 6, .wordsToDatetime, .identityStr, .STRING, .IMMUTABLE,
    some (.str [48, 48, 48, 48, 48, 48]), true, true⟩

/-- Claim C1, counterexample: the CLOCK_DEPLOY descriptor is registered,
its declared default string of six ASCII zeros lies in its valid domain,
yet decoding the encoded value yields the converted datetime rather than
the original string — its decode and encode are not mutual inverses. -/
theorem clock_deploy_roundtrip_fails :
    clockDeployDesc ∈ paramTable ∧
    inDomain clockDeployDesc (PVal.str [48, 48, 48, 48, 48, 48]) = true ∧
    decodeBytes clockDeployDesc.decoder
        (encodeVal clockDeployDesc.encoder (PVal.str [48, 48, 48, 48, 48, 48])) ≠
      PVal.str [48, 48, 48, 48, 48, 48] := by
  refine ⟨by decide, by decide, by decide⟩

/-- Claim C1, amended: for every parameter descriptor registered by
Protocol._build_param_dict other than CLOCK_DEPLOY, the descriptor's
decode and encode functions are mutual inverses over the parameter's
valid domain (in particular USER_2_SPARE, whose decoder hex-encodes and
whose encoder hex-decodes).  CLOCK_DEPLOY, whose decoder is
convert_words_to_datetime while its encoder is the identity on strings,
is the one registered descriptor for which the law fails. -/
theorem roundtrip_except_clock_deploy :
    ∀ d ∈ paramTable, d.name ≠ ParamName.CLOCK_DEPLOY →
      ∀ v : PVal, inDomain d v = true →
        decodeBytes d.decoder (encodeVal d.encoder v) = v := by
  have htab : ∀ d ∈ paramTable,
      (d.decoder = DecoderKind.wordToInt → d.encoder = EncoderKind.wordToStr) ∧
      (d.decoder = DecoderKind.doubleWordToInt → d.encoder = EncoderKind.doubleWordToStr) ∧
      (d.decoder = DecoderKind.hexPairs → d.encoder = EncoderKind.hexToBytes) ∧
      (d.decoder = DecoderKind.wordsToDatetime → d.name = ParamName.CLOCK_DEPLOY) := by
    decide
  intro d hd hn v hv
  rcases hdec : d.decoder with _ | _ | _ | _
  · have henc := (htab d hd).1 hdec
    rcases v with n | s | l <;> simp [inDomain, hdec] at hv
    simp [decodeBytes, encodeVal, hdec, henc, convert_word_roundtrip n hv]
  · have henc := (htab d hd).2.1 hdec
    rcases v with n | s | l <;> simp [inDomain, hdec] at hv
    simp [decodeBytes, encodeVal, hdec, henc, convert_double_word_roundtrip n hv]
  · exact absurd ((htab d hd).2.2.2 hdec) hn
  · have henc := (htab d hd).2.2.1 hdec
    rcases v with n | s | l <;> simp [inDomain, hdec] at hv
    simp [decodeBytes, encodeVal, hdec, henc,
      hex_roundtrip s hv.1 (List.all_eq_true.mpr hv.2)]

/-- Claim C1 witness: the round-trip law evaluated at the
TRANSMIT_PULSE_LENGTH descriptor with its default value 125. -/
theorem roundtrip_except_clock_deploy_witness :
    decodeBytes transmitPulseDesc.decoder
        (encodeVal transmitPulseDesc.encoder (PVal.int 125)) = PVal.int 125 :=
  roundtrip_except_clock_deploy transmitPulseDesc (by decide) (by decide)
    (PVal.int 125) (by decide)

/-- First chunk of spec Scenario A: the two sync bytes and eight payload
bytes. -/
def scenarioChunk1 : List Nat := 165 :: 1 :: List.replicate 8 3

/-- Second chunk of spec Scenario A: the remaining 32 payload bytes. -/
def scenarioChunk2 : List Nat := List.replicate 32 4

/-- Claim C2: when the declared signature is found but fewer than its
declared 42-byte frame length remain buffered, no frame is emitted and
the whole buffer is retained; and in Scenario A — sync 0xA5 0x01 plus 40
payload bytes fed as a 10-byte chunk then the remaining 32 bytes — the
sieve emits no frame after the first feed and exactly one frame, of 42
bytes, after the second. -/
theorem sieve_no_partial_and_scenarioA :
    (∀ buf : List Nat, buf.take 2 = [165, 1] → buf.length < 42 →
        baseChunkerSieve VECTOR_SAMPLE_STRUCTURES buf = ([], buf)) ∧
    (baseChunkerSieve VECTOR_SAMPLE_STRUCTURES ([] ++ scenarioChunk1)).1 = [] ∧
    (baseChunkerSieve VECTOR_SAMPLE_STRUCTURES
        ((baseChunkerSieve VECTOR_SAMPLE_STRUCTURES ([] ++ scenarioChunk1)).2 ++
          scenarioChunk2)).1 = [scenarioChunk1 ++ scenarioChunk2] ∧
    (scenarioChunk1 ++ scenarioChunk2).length = 42 := by
  refine ⟨?_, by decide, by decide, by decide⟩
  intro buf htake hlen
  rcases buf with _ | ⟨a, _ | ⟨b, t⟩⟩ <;> simp at htake
  rw [sieve_vel_cons2, if_pos ⟨htake.1, htake.2⟩, if_neg (by simp at hlen; omega)]

/-- Claim C2 witness: the no-partial-frame law evaluated on the 3-byte
buffer holding the sync pair and one payload byte. -/
theorem sieve_no_partial_witness :
    baseChunkerSieve VECTOR_SAMPLE_STRUCTURES [165, 1, 9] = ([], [165, 1, 9]) :=
  sieve_no_partial_and_scenarioA.1 [165, 1, 9] (by decide) (by decide)

/-- Claim C3, counterexample: no descriptor registered by
Protocol._build_param_dict has both byte offset 6 and default value 125;
offset 6 belongs to BLANKING_DISTANCE with default 49, while default 125
belongs to TRANSMIT_PULSE_LENGTH at offset 4. -/
theorem no_param_offset6_default125 :
    ¬ ∃ d ∈ paramTable, d.offset = 6 ∧ d.defaultValue = some (PVal.int 125) := by
  decide

/-- Claim C3, amended: the protocol registers TRANSMIT_PULSE_LENGTH with
a 2-byte big-endian word locator at byte offset 4 and default value 125,
and decoding a configuration block holding bytes 0x00 0x7D at offset 4
makes get of that parameter return 125. -/
theorem transmit_pulse_offset4_decode :
    (∃ d ∈ paramTable, d.name = ParamName.TRANSMIT_PULSE_LENGTH ∧ d.offset = 4 ∧
        d.width = 2 ∧ d.decoder = DecoderKind.wordToInt ∧
        d.defaultValue = some (PVal.int 125)) ∧
    (∀ (block : List Nat) (st : Shadow), 6 ≤ block.length →
      block.getD 4 0 = 0 → block.getD 5 0 = 125 →
      decode_from block st ParamName.TRANSMIT_PULSE_LENGTH = some (PVal.int 125)) := by
  constructor
  · decide
  · intro block st h6 h4 h5
    rw [decode_from, paramTable, decodeFromAux]
    rw [decodeFromAux_ne _ block _ ParamName.TRANSMIT_PULSE_LENGTH (by decide)]
    rw [if_pos (by simpa using h6)]
    rw [updateShadow, if_pos rfl]
    rw [drop_take_pair block 4 (by omega), h4, h5]
    rfl

/-- Claim C3 witness: decoding a concrete six-byte block with 0x00 0x7D
at offset 4. -/
theorem transmit_pulse_offset4_decode_witness :
    decode_from [9, 9, 9, 9, 0, 125] emptyShadow ParamName.TRANSMIT_PULSE_LENGTH =
      some (PVal.int 125) :=
  transmit_pulse_offset4_decode.2 [9, 9, 9, 9, 0, 125] emptyShadow
    (by decide) (by decide) (by decide)

/-- A 43-byte buffer beginning with the velocity sync pair: one byte
longer than the declared frame length. -/
def frame43 : List Nat := 165 :: 1 :: List.replicate 41 7

/-- A well-formed 42-byte velocity frame with zero payload. -/
def velFrame0 : List Nat := 165 :: 1 :: List.replicate 40 0

/-- Claim C4, counterexample: a 43-byte string beginning with the sync
pair has the wrong total frame length (43 rather than 42), yet the
velocity particle builder succeeds, so the builder does not fail on every
layout mismatch the claim lists. -/
theorem build_parsed_values_accepts_length43 :
    frame43.length = 43 ∧ frame43.take 2 = [165, 1] ∧
    (∃ p, build_parsed_values frame43 = Except.ok p) :=
  ⟨by decide, by decide, ⟨_, rfl⟩⟩

/-- Claim C4, amended: building the velocity particle fails with
SampleError exactly when the byte string is shorter than 40 bytes or does
not begin with the sync pair 0xA5 0x01; the regex is a prefix match, so
no total-length upper bound, checksum or field-range check is
performed. -/
theorem build_parsed_values_error_iff (d : List Nat) :
    (∃ p, build_parsed_values d = Except.ok p) ↔
      (40 ≤ d.length ∧ d.take 2 = [165, 1]) := by
  unfold build_parsed_values velocityDataMatch
  split_ifs with h
  · simp [h]
  · simp [h]

/-- Claim C4 witness: the failure condition evaluated on a well-formed
42-byte frame, which the builder accepts. -/
theorem build_parsed_values_error_iff_witness :
    ∃ p, build_parsed_values velFrame0 = Except.ok p :=
  (build_parsed_values_error_iff velFrame0).mpr (by decide)

/-- Claim C5: a set attempt on any registered parameter whose descriptor
is IMMUTABLE or READ_ONLY, with the device deployed as it is in the
COMMAND state, fails with ParameterError and leaves the shadow store
unchanged, for every value and every write-acknowledgement behaviour. -/
theorem immutable_readonly_set_fails :
    ∀ (n : ParamName) (d : ParamDesc), lookupDesc n = some d →
      (d.visibility = Visibility.IMMUTABLE ∨ d.visibility = Visibility.READ_ONLY) →
      ∀ (wOk : ParamName → PVal → Bool) (st : Shadow) (v : PVal),
        trySet true wOk st n v = (st, some SetErr.parameterError) := by
  intro n d hl hvis wOk st v
  rcases hvis with hv | hv <;> simp [trySet, hl, hv]

/-- Claim C5 witness: Scenario C — setting the immutable
TRANSMIT_PULSE_LENGTH to 500 in the COMMAND state fails with
ParameterError and the empty shadow store is unchanged. -/
theorem immutable_readonly_set_fails_witness :
    trySet true (fun _ _ => true) emptyShadow ParamName.TRANSMIT_PULSE_LENGTH
        (PVal.int 500) = (emptyShadow, some SetErr.parameterError) :=
  immutable_readonly_set_fails ParamName.TRANSMIT_PULSE_LENGTH transmitPulseDesc
    (by decide) (Or.inl (by decide)) (fun _ _ => true) emptyShadow (PVal.int 500)

/-- Claim C6: feeding any byte sequence in one call or split across
arbitrarily many chunks yields the identical ordered frame list, and the
emitted frames carry strictly increasing start offsets — they are
reported in exactly the order their signatures complete in the byte
stream, with no reordering. -/
theorem sieve_split_invariance_and_ordering :
    ∀ cs : List (List Nat),
      (feedAll [] cs).1 = (baseChunkerSieve VECTOR_SAMPLE_STRUCTURES cs.join).1 ∧
      (sievePos 0 cs.join).1.map Prod.snd =
        (baseChunkerSieve VECTOR_SAMPLE_STRUCTURES cs.join).1 ∧
      List.Chain' (fun x y : Nat × List Nat => x.1 < y.1) (sievePos 0 cs.join).1 := by
  intro cs
  refine ⟨?_, sievePos_map_snd cs.join.length 0 cs.join le_rfl,
    sievePos_chain cs.join.length 0 cs.join le_rfl⟩
  rcases cs with _ | ⟨c, cs⟩
  · rfl
  · rw [feedAll_eq_join c cs []]
    simp

/-- Claim C7: for every 42-byte frame accepted by the extractor, the
pressure equals the single byte at frame offset 22 (payload position 20)
times 65536 plus the word-to-int conversion of frame bytes 24-25, the
status and the three amplitudes equal the ordinal of their single byte,
and the timestamp is the instrument-epoch conversion of the first six
payload bytes. -/
theorem velocity_particle_field_decode (d : List Nat) (hlen : d.length = 42)
    (hsync : d.take 2 = [165, 1]) :
    ∃ p, build_parsed_values d = Except.ok p ∧
      p.pressure = d.getD 22 0 * 65536 +
        convert_word_to_int [d.getD 24 0, d.getD 25 0] ∧
      p.status = d.getD 23 0 ∧
      p.amplitude_beam1 = d.getD 34 0 ∧
      p.amplitude_beam2 = d.getD 35 0 ∧
      p.amplitude_beam3 = d.getD 36 0 ∧
      p.timestamp = convert_time ((d.drop 2).take 6) := by
  have hm : velocityDataMatch d =
      some (velGroupBounds.map fun p => (d.drop p.1).take p.2) := by
    rw [velocityDataMatch, if_pos ⟨by omega, hsync⟩]
  have h22 : (d.drop 22).take 1 = [d.getD 22 0] := drop_take_single d 22 (by omega)
  have h23 : (d.drop 23).take 1 = [d.getD 23 0] := drop_take_single d 23 (by omega)
  have h24 : (d.drop 24).take 2 = [d.getD 24 0, d.getD 25 0] :=
    drop_take_pair d 24 (by omega)
  have h34 : (d.drop 34).take 1 = [d.getD 34 0] := drop_take_single d 34 (by omega)
  have h35 : (d.drop 35).take 1 = [d.getD 35 0] := drop_take_single d 35 (by omega)
  have h36 : (d.drop 36).take 1 = [d.getD 36 0] := drop_take_single d 36 (by omega)
  refine ⟨build_particle (velGroupBounds.map fun p => (d.drop p.1).take p.2),
    ?_, ?_, ?_, ?_, ?_, ?_, ?_⟩
  · simp only [build_parsed_values, hm]
  · simp [build_particle, velGroupBounds, h22, h24]
  · simp [build_particle, velGroupBounds, h23]
  · simp [build_particle, velGroupBounds, h34]
  · simp [build_particle, velGroupBounds, h35]
  · simp [build_particle, velGroupBounds, h36]
  · simp [build_particle, velGroupBounds]

/-- Claim C7 witness: the field-decoding law evaluated on the zero-payload
42-byte frame. -/
theorem velocity_particle_field_decode_witness :
    ∃ p, build_parsed_values velFrame0 = Except.ok p ∧
      p.pressure = velFrame0.getD 22 0 * 65536 +
        convert_word_to_int [velFrame0.getD 24 0, velFrame0.getD 25 0] ∧
      p.status = velFrame0.getD 23 0 ∧
      p.amplitude_beam1 = velFrame0.getD 34 0 ∧
      p.amplitude_beam2 = velFrame0.getD 35 0 ∧
      p.amplitude_beam3 = velFrame0.getD 36 0 ∧
      p.timestamp = convert_time ((velFrame0.drop 2).take 6) :=
  velocity_particle_field_decode velFrame0 (by decide) (by decide)

/-- Commit every batch value carried by the given descriptors, in order;
the state a batch write leaves behind for the descriptors before the
first failure. -/
def commitBatch (st : Shadow) (batch : ParamName → Option PVal) :
    List ParamDesc → Shadow
  | [] => st
  | d :: ds =>
    commitBatch
      (match batch d.name with
       | some v => updateShadow st d.name v
       | none => st) batch ds

/-- Claim C8: the batch set applies every per-parameter translation hook
(each defaulting to identity — the source's translation loop only logs)
before any write is issued, then writes in the dictionary's declared
order; at the first failed write it stops, reports that parameter's name,
keeps every earlier commit, and leaves later parameters untouched. -/
theorem set_params_batch_policy :
    (∀ (wOk : ParamName → PVal → Bool) (st : Shadow)
        (batch : List (ParamName × PVal)),
      set_params wOk st batch =
        setParamsAux wOk paramTable st (batchLookup (translateBatch batch))) ∧
    (∀ (wOk : ParamName → PVal → Bool) (pre : List ParamDesc) (df : ParamDesc)
        (post : List ParamDesc) (st : Shadow) (batch : ParamName → Option PVal)
        (v : PVal),
      (∀ d2 ∈ pre, ∀ w, batch d2.name = some w → wOk d2.name w = true) →
      batch df.name = some v → wOk df.name v = false →
      setParamsAux wOk (pre ++ df :: post) st batch =
        (commitBatch st batch pre, some df.name)) := by
  constructor
  · intro wOk st batch
    rfl
  · intro wOk pre df post st batch v hpre hdf hfail
    induction pre generalizing st with
    | nil =>
      simp only [List.nil_append, setParamsAux, hdf, hfail]
      rfl
    | cons d2 pre ih =>
      have hd2 := hpre d2 (List.mem_cons_self d2 pre)
      have htail : ∀ x ∈ pre, ∀ w, batch x.name = some w → wOk x.name w = true :=
        fun x hx => hpre x (List.mem_cons_of_mem d2 hx)
      rcases hb : batch d2.name with _ | w
      · simp only [List.cons_append, setParamsAux, hb, List.append_eq]
        rw [ih st htail]
        simp [commitBatch, hb]
      · have hw : wOk d2.name w = true := hd2 w hb
        simp only [List.cons_append, setParamsAux, hb, List.append_eq]
        rw [if_pos hw, ih (updateShadow st d2.name w) htail]
        simp [commitBatch, hb]

/-- Write-acceptance used by the batch witness: every parameter except
BLANKING_DISTANCE is accepted. -/
def demoWriteOk : ParamName → PVal → Bool :=
  fun n _ => decide (n ≠ ParamName.BLANKING_DISTANCE)

/-- Two-parameter batch used by the batch witness. -/
def demoBatch : ParamName → Option PVal :=
  fun n =>
    if n = ParamName.TRANSMIT_PULSE_LENGTH then some (PVal.int 1)
    else if n = ParamName.BLANKING_DISTANCE then some (PVal.int 2)
    else none

def blankingDistanceDesc : ParamDesc :=
  ⟨.BLANKING_DISTANCE, 6, 2, .wordToInt, .wordToStr, .INT, .READ_WRITE,
    some (.int 49), true, true⟩

/-- Claim C8 witness: a two-parameter batch in which the write of
BLANKING_DISTANCE fails, leaving TRANSMIT_PULSE_LENGTH committed and
naming the failed parameter. -/
theorem set_params_batch_policy_witness :
    setParamsAux demoWriteOk ([transmitPulseDesc] ++ blankingDistanceDesc :: [])
        emptyShadow demoBatch =
      (commitBatch emptyShadow demoBatch [transmitPulseDesc],
       some blankingDistanceDesc.name) :=
  set_params_batch_policy.2 demoWriteOk [transmitPulseDesc] blankingDistanceDesc
    [] emptyShadow demoBatch (PVal.int 2)
    (by
      intro d2 hd2 w hw
      have : d2 = transmitPulseDesc := by simpa using hd2
      subst this
      simp [demoBatch, transmitPulseDesc] at hw
      subst hw
      decide)
    (by decide) (by decide)

/-- Claim C9: the set handler rejects a missing first argument or a
non-dict first argument with an InstrumentParameterException before the
shadow store is touched, defaults the absent second (startup) argument to
False, and on a successful batch returns the pair (None, None). -/
theorem handler_command_set_contract :
    ∀ (wOk : ParamName → PVal → Bool) (st : Shadow),
      handler_command_set wOk [] st = (st, Except.error HandlerErr.parameterError) ∧
      (∀ (a0 : PyVal) (args : List PyVal), (∀ m, a0 ≠ PyVal.dict m) →
        handler_command_set wOk (a0 :: args) st =
          (st, Except.error HandlerErr.parameterError)) ∧
      (∀ a0 : PyVal, handler_command_set wOk [a0] st =
        handler_command_set wOk [a0, PyVal.bool false] st) ∧
      (∀ (m : List (ParamName × PVal)) (args : List PyVal),
        (set_params wOk st m).2 = none →
        (handler_command_set wOk (PyVal.dict m :: args) st).2 =
          Except.ok (none, none)) := by
  intro wOk st
  refine ⟨rfl, ?_, ?_, ?_⟩
  · intro a0 args hnd
    cases a0 with
    | dict m => exact absurd rfl (hnd m)
    | bool b => rfl
    | other => rfl
  · intro a0
    rfl
  · intro m args hsp
    rcases hr : set_params wOk st m with ⟨st2, r⟩
    rw [hr] at hsp
    simp at hsp
    subst hsp
    simp [handler_command_set, hr]

/-- Claim C9 witness: invoking the handler with a non-dict argument
leaves the empty shadow store unchanged and reports ParameterError. -/
theorem handler_command_set_contract_witness :
    handler_command_set (fun _ _ => true) [PyVal.other] emptyShadow =
      (emptyShadow, Except.error HandlerErr.parameterError) :=
  ((handler_command_set_contract (fun _ _ => true) emptyShadow).2.1) PyVal.other []
    (fun m h => PyVal.noConfusion h)

/-- Claim C10: chunker_sieve_function returns the same result for every
raw buffer under any two values of its add_structs argument, always
scanning with exactly the fixed velocity signature table and nothing
else. -/
theorem chunker_sieve_ignores_add_structs :
    ∀ (raw : List Nat) (s1 s2 : List (List Nat × Nat)),
      chunker_sieve_function raw s1 = chunker_sieve_function raw s2 ∧
      chunker_sieve_function raw s1 =
        baseChunkerSieve VECTOR_SAMPLE_STRUCTURES raw :=
  fun _ _ _ => ⟨rfl, rfl⟩

end AquadoppDw
